import Mathlib

/-!
Shallow embedding of the SaralSandhi contract backend:
the analysis pipeline (`contract_manager.py`, `services/contract_service.py`),
the two-party approval state machine, and the blockchain attestation step
(`services/blockchain_service.py`).
-/

namespace SaralSandhi

/-! ## Enumerations from `models/contract.py`, `models/contract_party.py`,
`models/contract_event.py` -/

/-- Mirrors `RiskScore` (`models/contract.py`). -/
inductive RiskScore where
  | high
  | medium
  | low
  | safe
deriving DecidableEq, Repr

/-- Mirrors `RiskSeverity` (`models/contract.py`). -/
inductive RiskSeverity where
  | high
  | medium
  | low
deriving DecidableEq, Repr

/-- Mirrors `ContractStatus` (`models/contract.py`). -/
inductive ContractStatus where
  | pending_review
  | reviewed
  | archived
  | approved
  | rejected
deriving DecidableEq, Repr

/-- Mirrors `ContractCategory` (`models/contract.py`). -/
inductive ContractCategory where
  | employment
  | rental
  | nda
  | service
  | sales
  | partnership
  | loan
  | insurance
  | other
deriving DecidableEq, Repr

/-- Mirrors `TranslationLanguage` (`models/contract.py`). -/
inductive TranslationLanguage where
  | hindi
  | bengali
deriving DecidableEq, Repr

/-- Mirrors `ApprovalStatus` (`models/contract_party.py`). -/
inductive ApprovalStatus where
  | pending
  | approved
  | rejected
deriving DecidableEq, Repr

/-- Mirrors `PartyRole` (`models/contract_party.py`). -/
inductive PartyRole where
  | first_party
  | second_party
deriving DecidableEq, Repr

/-- Mirrors `EventType` (`models/contract_event.py`). -/
inductive EventType where
  | document_uploaded
  | ai_analysis_completed
  | translation_viewed
  | first_party_approved
  | first_party_rejected
  | second_party_added
  | second_party_removed
  | second_party_approved
  | second_party_rejected
  | contract_finalized
  | blockchain_verified
deriving DecidableEq, Repr

/-- Mirrors the `RiskSeverity(value)` enum constructor: `some` on the three
member values, `none` where Python raises `ValueError`. -/
def riskSeverityOfString : String → Option RiskSeverity
  | "high" => some RiskSeverity.high
  | "medium" => some RiskSeverity.medium
  | "low" => some RiskSeverity.low
  | _ => none

/-- Mirrors the `ContractCategory(value)` enum constructor: `some` on the nine
member values, `none` where Python raises `ValueError`. -/
def contractCategoryOfString : String → Option ContractCategory
  | "employment" => some ContractCategory.employment
  | "rental" => some ContractCategory.rental
  | "nda" => some ContractCategory.nda
  | "service" => some ContractCategory.service
  | "sales" => some ContractCategory.sales
  | "partnership" => some ContractCategory.partnership
  | "loan" => some ContractCategory.loan
  | "insurance" => some ContractCategory.insurance
  | "other" => some ContractCategory.other
  | _ => none

/-! ## Stage outputs from `contract_manager.py` -/

/-- One entry of `ModelAOutput.clauses`: a dict
`{"clause_id": ..., "original_text": ..., "simplified_text": ...}`. -/
structure ClauseEntry where
  clause_id : Nat
  original_text : String
  simplified_text : String
deriving DecidableEq, Repr

/-- One entry of a `ModelBOutput.translations` list: a dict
`{"clause_id": ..., "translated_text": ...}`. -/
structure TranslationEntry where
  clause_id : Nat
  translated_text : String
deriving DecidableEq, Repr

/-- One entry of `ModelCOutput.risks`: a dict with `clause_id`, `risk_type`,
`severity`, `description`, `recommendation` keys. -/
structure RiskEntry where
  clause_id : Nat
  risk_type : String
  severity : String
  description : String
  recommendation : String
deriving DecidableEq, Repr

/-- Mirrors the dataclass `ModelAOutput` (`contract_manager.py`). -/
structure ModelAOutput where
  success : Bool
  clauses : List ClauseEntry
  error : Option String
deriving DecidableEq, Repr

/-- Mirrors the dataclass `ModelBOutput`; the `translations` dict is split into
its two fixed keys. -/
structure ModelBOutput where
  success : Bool
  hindi : List TranslationEntry
  bengali : List TranslationEntry
  error : Option String
deriving DecidableEq, Repr

/-- Mirrors the dataclass `ModelCOutput` (`contract_manager.py`). -/
structure ModelCOutput where
  success : Bool
  risks : List RiskEntry
  summary : String
  error : Option String
deriving DecidableEq, Repr

/-- Mirrors the dataclass `MetadataOutput` (`contract_manager.py`). -/
structure MetadataOutput where
  success : Bool
  category : Option String
  expiry_date : Option String
  error : Option String
deriving DecidableEq, Repr

/-- Outcome of one Gemini call as seen by a stage wrapper: either the parsed
JSON payload (already shaped for that stage) or the exception message the
`except` branch would catch. -/
abbrev CallResult (α : Type) := Except String α

/-- Mirrors `model_a_simplify`: on a successful call the parsed `clauses`
list is used, on an exception the failure output is built. -/
def model_a_simplify (call : CallResult (List ClauseEntry)) : ModelAOutput :=
  match call with
  | Except.ok clauses => { success := true, clauses := clauses, error := none }
  | Except.error e => { success := false, clauses := [], error := some e }

/-- Mirrors `model_b_translate`: the parsed payload carries the `hindi` and
`bengali` lists. -/
def model_b_translate (call : CallResult (List TranslationEntry × List TranslationEntry)) :
    ModelBOutput :=
  match call with
  | Except.ok p => { success := true, hindi := p.1, bengali := p.2, error := none }
  | Except.error e => { success := false, hindi := [], bengali := [], error := some e }

/-- Mirrors `model_c_detect_risks`: the parsed payload carries the `risks`
list and the `summary` string; the failure branch returns an empty risk list
and empty summary. -/
def model_c_detect_risks (call : CallResult (List RiskEntry × String)) : ModelCOutput :=
  match call with
  | Except.ok p => { success := true, risks := p.1, summary := p.2, error := none }
  | Except.error e => { success := false, risks := [], summary := "", error := some e }

/-- Python's `str.lower()`: per-character lower-casing. Implemented as a
structural map over the character list (Lean's `String.toLower` is
definitionally the same map but is compiled with well-founded recursion). -/
def lowerStr (s : String) : String :=
  String.mk (s.data.map Char.toLower)

/-- The `valid_categories` list from `extract_metadata` (`contract_manager.py`). -/
def valid_categories : List String :=
  ["employment", "rental", "nda", "service", "sales", "partnership",
   "loan", "insurance", "other"]

/-- Mirrors `extract_metadata`: the parsed payload carries the raw `category`
field (`none` when the key is absent, so that `result.get("category", "other")`
yields the default) and the raw `expiry_date` field. The category is
lower-cased and validated against `valid_categories`, falling back to
`"other"`. -/
def extract_metadata (call : CallResult (Option String × Option String)) : MetadataOutput :=
  match call with
  | Except.error e => { success := false, category := none, expiry_date := none, error := some e }
  | Except.ok p =>
    let category := lowerStr (p.1.getD "other")
    let category := if valid_categories.contains category then category else "other"
    { success := true, category := some category, expiry_date := p.2, error := none }

/-! ## Derived fields (`ContractService`) -/

/-- Mirrors `ContractService._calculate_risk_score`. -/
def calculate_risk_score (risks : List RiskEntry) : RiskScore :=
  if risks.any (fun r => r.severity == "high") then RiskScore.high
  else if risks.any (fun r => r.severity == "medium") then RiskScore.medium
  else if risks.any (fun r => r.severity == "low") then RiskScore.low
  else RiskScore.safe

/-- Numeric rank of a severity string under the ordering
high > medium > low > everything else. -/
def severityRank (s : String) : Nat :=
  if s == "high" then 3
  else if s == "medium" then 2
  else if s == "low" then 1
  else 0

/-- Numeric rank of an aggregate risk score under high > medium > low > safe. -/
def scoreRank : RiskScore → Nat
  | RiskScore.high => 3
  | RiskScore.medium => 2
  | RiskScore.low => 1
  | RiskScore.safe => 0

/-- Mirrors `ContractService._determine_language`. -/
def determine_language (b : ModelBOutput) : Bool :=
  !b.hindi.isEmpty || !b.bengali.isEmpty

/-- Mirrors the category-parsing block of `ContractService.analyze_and_save`
(lines 144-152): only a successful metadata stage with a truthy `category`
field is parsed; an enum `ValueError` falls back to `OTHER`. -/
def parse_contract_category (m : MetadataOutput) : Option ContractCategory :=
  if m.success then
    match m.category with
    | some c =>
      if c.isEmpty then none
      else
        match contractCategoryOfString c with
        | some cat => some cat
        | none => some ContractCategory.other
    | none => none
  else none

/-! ## Persisted rows created by `analyze_and_save` -/

/-- The fields of a `Contract` row that `analyze_and_save` computes (identity,
file payload and timestamps are not modelled). -/
structure ContractRow where
  overall_risk_score : RiskScore
  status : ContractStatus
  risk_summary : String
  category : Option ContractCategory
deriving DecidableEq, Repr

/-- A `ContractParty` row. -/
structure PartyRow where
  role : PartyRole
  approval_status : ApprovalStatus
deriving DecidableEq, Repr

/-- A `Clause` row keyed by its `clause_index`. -/
structure ClauseRow where
  clause_index : Nat
  original_text : String
  simplified_text : String
deriving DecidableEq, Repr

/-- A `Translation` row; the parent clause is identified by its
`clause_index`, standing in for the clause's database identity. -/
structure TranslationRow where
  clause_index : Nat
  language : TranslationLanguage
  translated_text : String
deriving DecidableEq, Repr

/-- A `Risk` row; the parent clause is identified by its `clause_index`. -/
structure RiskRow where
  clause_index : Nat
  risk_type : String
  severity : RiskSeverity
  description : String
  recommendation : String
deriving DecidableEq, Repr

/-- The rows one `analyze_and_save` call adds plus the two audit events it
logs. -/
structure PipelineDB where
  contracts : List ContractRow
  parties : List PartyRow
  clauses : List ClauseRow
  translations : List TranslationRow
  risks : List RiskRow
  events : List EventType
deriving DecidableEq, Repr

/-- The empty unit of work: nothing persisted. -/
def emptyDB : PipelineDB :=
  { contracts := [], parties := [], clauses := [], translations := [], risks := [], events := [] }

/-- The JSON shape of `ContractAnalysisResponse` as returned by
`analyze_and_save`. -/
structure AnalysisResponse where
  success : Bool
  contract_id : String
  clauses : List ClauseEntry
  hindi : List TranslationEntry
  bengali : List TranslationEntry
  risks : List RiskEntry
  risk_summary : String
  error : Option String
deriving DecidableEq, Repr

/-- Names of the four analysis stages, used to record which capability calls
a pipeline run performed. -/
inductive StageName where
  | simplify
  | translate
  | detectRisks
  | extractMeta
deriving DecidableEq, Repr

/-- The outcomes of the external calls available to one `analyze_and_save`
run: the extracted PDF text and the raw result of each Gemini call. -/
structure StageOracle where
  extract_text : String
  simplify : CallResult (List ClauseEntry)
  translate : CallResult (List TranslationEntry × List TranslationEntry)
  detect_risks : CallResult (List RiskEntry × String)
  metadata : CallResult (Option String × Option String)

/-- Result of a completed (non-raising) `analyze_and_save` call: the HTTP
response, the rows flushed to the database, and the stages that ran. -/
structure AnalysisOutcome where
  response : AnalysisResponse
  db : PipelineDB
  stagesRun : List StageName
deriving DecidableEq, Repr

/-- The translation rows the clause loop of `analyze_and_save` adds: for each
clause (in stage-1 order), for each of the two languages, every entry of that
language whose `clause_id` equals the clause's `clause_id`. -/
def buildTranslationRows (clauses : List ClauseEntry) (b : ModelBOutput) :
    List TranslationRow :=
  clauses.flatMap (fun cd =>
    ((b.hindi.filter (fun t => t.clause_id == cd.clause_id)).map
      (fun t => TranslationRow.mk cd.clause_id TranslationLanguage.hindi t.translated_text))
    ++ ((b.bengali.filter (fun t => t.clause_id == cd.clause_id)).map
      (fun t => TranslationRow.mk cd.clause_id TranslationLanguage.bengali t.translated_text)))

/-- The matched (clause, risk) pairs the clause loop of `analyze_and_save`
visits, in iteration order. -/
def matchedRisks (clauses : List ClauseEntry) (risks : List RiskEntry) :
    List (Nat × RiskEntry) :=
  clauses.flatMap (fun cd =>
    (risks.filter (fun r => r.clause_id == cd.clause_id)).map (fun r => (cd.clause_id, r)))

/-- The risk rows the clause loop adds; building a row calls the
`RiskSeverity(r["severity"])` constructor, so the first matched entry with a
severity outside the enum raises `ValueError` (contract_service.py line 213). -/
def buildRiskRows : List (Nat × RiskEntry) → Except String (List RiskRow)
  | [] => Except.ok []
  | p :: ps =>
    match riskSeverityOfString p.2.severity with
    | none => Except.error (p.2.severity ++ " is not a valid RiskSeverity")
    | some sev =>
      match buildRiskRows ps with
      | Except.ok rows =>
        Except.ok (RiskRow.mk p.1 p.2.risk_type sev p.2.description p.2.recommendation :: rows)
      | Except.error e => Except.error e

/-- Mirrors `ContractService.analyze_and_save` over the oracle of external
call outcomes. `Except.error` is an exception escaping the service (the
database unit of work rolls back, so no rows survive); `Except.ok` is a
returned `ContractAnalysisResponse` together with the flushed rows and the
stages that were invoked. -/
def analyze_and_save (o : StageOracle) : Except String AnalysisOutcome :=
  if o.extract_text.isEmpty then
    Except.ok
      { response :=
          { success := false, contract_id := "", clauses := [], hindi := [], bengali := [],
            risks := [], risk_summary := "", error := some "Could not extract text from PDF" },
        db := emptyDB, stagesRun := [] }
  else
    let a := model_a_simplify o.simplify
    if !a.success then
      Except.ok
        { response :=
            { success := false, contract_id := "", clauses := [], hindi := [], bengali := [],
              risks := [], risk_summary := "", error := a.error },
          db := emptyDB, stagesRun := [StageName.simplify] }
    else
      let b := model_b_translate o.translate
      let c := model_c_detect_risks o.detect_risks
      let m := extract_metadata o.metadata
      let risk_score := calculate_risk_score c.risks
      let contract_category := parse_contract_category m
      let contract : ContractRow :=
        { overall_risk_score := risk_score, status := ContractStatus.pending_review,
          risk_summary := c.summary, category := contract_category }
      let first_party : PartyRow :=
        { role := PartyRole.first_party, approval_status := ApprovalStatus.pending }
      let clauseRows := a.clauses.map
        (fun cd => ClauseRow.mk cd.clause_id cd.original_text cd.simplified_text)
      let translationRows := buildTranslationRows a.clauses b
      match buildRiskRows (matchedRisks a.clauses c.risks) with
      | Except.error e => Except.error e
      | Except.ok riskRows =>
        Except.ok
          { response :=
              { success := true, contract_id := "contract", clauses := a.clauses,
                hindi := b.hindi, bengali := b.bengali, risks := c.risks,
                risk_summary := c.summary, error := none },
            db :=
              { contracts := [contract], parties := [first_party], clauses := clauseRows,
                translations := translationRows, risks := riskRows,
                events := [EventType.document_uploaded, EventType.ai_analysis_completed] },
            stagesRun :=
              [StageName.simplify, StageName.translate, StageName.detectRisks,
               StageName.extractMeta] }

/-! ## Approval state machine (`ContractService.set_approval`,
`_update_contract_status`, `add_second_party`, `remove_second_party`) -/

/-- Client-facing HTTP error classes raised by the party operations. -/
inductive ClientError where
  | forbidden
  | badRequest
  | notFound
deriving DecidableEq, Repr

/-- The actor making a request, identified by the role their party record
would have: the uploader (always the first party), the user currently linked
as second party (their record exists only while a second party is attached),
or a user with no party record on the contract. -/
inductive Caller where
  | first
  | second
  | outsider
deriving DecidableEq, Repr

/-- The per-contract state the approval operations read and write: the
`Contract` row's lifecycle fields, the first party's approval, the optional
second party record's approval, and the audit-event log. -/
structure ApprovalState where
  status : ContractStatus
  firstApproval : ApprovalStatus
  secondApproval : Option ApprovalStatus
  blockchainHash : Option String
  blockchainTx : Option String
  finalized_at : Bool
  events : List EventType
deriving DecidableEq, Repr

/-- State of a contract right after a successful upload: `PENDING_REVIEW`,
first party pending, no second party, and the two pipeline audit events. -/
def initState : ApprovalState :=
  { status := ContractStatus.pending_review, firstApproval := ApprovalStatus.pending,
    secondApproval := none, blockchainHash := none, blockchainTx := none,
    finalized_at := false,
    events := [EventType.document_uploaded, EventType.ai_analysis_completed] }

/-- Mirrors `ContractService._get_user_party`: the role of the caller's party
record, or `none` when no record exists. -/
def callerParty (s : ApprovalState) : Caller → Option PartyRole
  | Caller.first => some PartyRole.first_party
  | Caller.second =>
    if s.secondApproval.isSome then some PartyRole.second_party else none
  | Caller.outsider => none

/-- Approval status of the caller's party record, when one exists. -/
def callerApproval (s : ApprovalState) (c : Caller) : Option ApprovalStatus :=
  match callerParty s c with
  | some PartyRole.first_party => some s.firstApproval
  | some PartyRole.second_party => s.secondApproval
  | none => none

/-- Mirrors `ContractService._update_contract_status`: recomputes the
contract status from the party approvals; on the both-approved branch stores
the blockchain hash and optional transaction hash produced by
`_generate_and_store_blockchain_hash` and stamps `finalized_at`. Returns the
updated state and the `finalized` flag. -/
def update_contract_status (s : ApprovalState) (hash : String) (tx : Option String) :
    ApprovalState × Bool :=
  match s.secondApproval with
  | none => (s, false)
  | some snd =>
    if s.firstApproval = ApprovalStatus.rejected ∨ snd = ApprovalStatus.rejected then
      ({ s with status := ContractStatus.rejected }, false)
    else if s.firstApproval = ApprovalStatus.approved ∧ snd = ApprovalStatus.approved then
      ({ s with status := ContractStatus.approved, blockchainHash := some hash,
                blockchainTx := tx, finalized_at := true }, true)
    else (s, false)

/-- The role/outcome-specific audit event `set_approval` logs. -/
def approvalEvent (role : PartyRole) (approved : Bool) : EventType :=
  match role, approved with
  | PartyRole.first_party, true => EventType.first_party_approved
  | PartyRole.first_party, false => EventType.first_party_rejected
  | PartyRole.second_party, true => EventType.second_party_approved
  | PartyRole.second_party, false => EventType.second_party_rejected

/-- The party-record write `set_approval` performs:
`party.approval_status = APPROVED if approved else REJECTED`. -/
def applyApproval (s : ApprovalState) (role : PartyRole) (newStatus : ApprovalStatus) :
    ApprovalState :=
  match role with
  | PartyRole.first_party => { s with firstApproval := newStatus }
  | PartyRole.second_party => { s with secondApproval := some newStatus }

/-- The tail of `set_approval`: when `_update_contract_status` reported
finalization, log the `contract_finalized` and `blockchain_verified` events. -/
def finalizeEvents (s3 : ApprovalState) (finalized : Bool) : ApprovalState :=
  if finalized then
    { s3 with
      events := s3.events ++ [EventType.contract_finalized, EventType.blockchain_verified] }
  else s3

/-- Mirrors `ContractService.set_approval`. The `hash` and `tx` arguments are
the outcome `_generate_and_store_blockchain_hash` would produce if this call
finalizes the contract. -/
def set_approval (s : ApprovalState) (caller : Caller) (approved : Bool)
    (hash : String) (tx : Option String) : Except ClientError ApprovalState :=
  match callerParty s caller with
  | none => Except.error ClientError.forbidden
  | some role =>
    let current :=
      match role with
      | PartyRole.first_party => s.firstApproval
      | PartyRole.second_party => s.secondApproval.getD ApprovalStatus.pending
    if current ≠ ApprovalStatus.pending then Except.error ClientError.badRequest
    else
      let newStatus :=
        if approved then ApprovalStatus.approved else ApprovalStatus.rejected
      let s1 := applyApproval s role newStatus
      let s2 := { s1 with events := s1.events ++ [approvalEvent role approved] }
      let r := update_contract_status s2 hash tx
      Except.ok (finalizeEvents r.1 r.2)

/-- Mirrors `ContractService.add_second_party`; `emailResolves` is whether the
given email matches a known user and `isSelf` whether that user is the
caller. -/
def add_second_party (s : ApprovalState) (caller : Caller)
    (emailResolves : Bool) (isSelf : Bool) : Except ClientError ApprovalState :=
  match callerParty s caller with
  | some PartyRole.first_party =>
    if s.secondApproval.isSome then Except.error ClientError.badRequest
    else if !emailResolves then Except.error ClientError.notFound
    else if isSelf then Except.error ClientError.badRequest
    else
      Except.ok
        { s with secondApproval := some ApprovalStatus.pending,
                 events := s.events ++ [EventType.second_party_added] }
  | _ => Except.error ClientError.forbidden

/-- Mirrors `ContractService.remove_second_party`. -/
def remove_second_party (s : ApprovalState) (caller : Caller) :
    Except ClientError ApprovalState :=
  match callerParty s caller with
  | some PartyRole.first_party =>
    match s.secondApproval with
    | none => Except.error ClientError.notFound
    | some _ =>
      let s1 :=
        { s with secondApproval := none,
                 events := s.events ++ [EventType.second_party_removed] }
      if s1.status = ContractStatus.approved ∨ s1.status = ContractStatus.rejected then
        Except.ok
          { s1 with status := ContractStatus.pending_review,
                    firstApproval := ApprovalStatus.pending }
      else Except.ok s1
  | _ => Except.error ClientError.forbidden

/-- One request against the approval endpoints, carrying the request inputs
and (for `set_approval`) the attestation outcome used on finalization. -/
inductive Op where
  | setApproval (caller : Caller) (approved : Bool) (hash : String) (tx : Option String)
  | addSecondParty (caller : Caller) (emailResolves : Bool) (isSelf : Bool)
  | removeSecondParty (caller : Caller)
deriving DecidableEq, Repr

/-- Applies one request; a request that fails with a client error leaves the
persisted state unchanged (the transaction sees no mutation). -/
def applyOp (s : ApprovalState) (op : Op) : ApprovalState :=
  match op with
  | Op.setApproval caller approved hash tx =>
    match set_approval s caller approved hash tx with
    | Except.ok s1 => s1
    | Except.error _ => s
  | Op.addSecondParty caller emailResolves isSelf =>
    match add_second_party s caller emailResolves isSelf with
    | Except.ok s1 => s1
    | Except.error _ => s
  | Op.removeSecondParty caller =>
    match remove_second_party s caller with
    | Except.ok s1 => s1
    | Except.error _ => s

/-- Runs a sequence of requests. -/
def runOps (s : ApprovalState) (ops : List Op) : ApprovalState :=
  ops.foldl applyOp s

/-- Number of `contract_finalized` audit events recorded in a state. -/
def finalizedCount (s : ApprovalState) : Nat :=
  s.events.count EventType.contract_finalized

/-- Whether a request is a `remove_second_party` call. -/
def Op.isRemove : Op → Bool
  | Op.removeSecondParty _ => true
  | _ => false

/-! ## Blockchain attestation (`services/blockchain_service.py`,
`ContractService._generate_and_store_blockchain_hash`) -/

/-- The four configuration fields `BlockchainService.is_enabled` reads
(`core/config.py`). -/
structure BlockchainSettings where
  BLOCKCHAIN_ENABLED : Bool
  ETHEREUM_RPC_URL : String
  ETHEREUM_PRIVATE_KEY : String
  CONTRACT_REGISTRY_ADDRESS : String
deriving DecidableEq, Repr

/-- Mirrors `BlockchainService.is_enabled`: the feature flag and the three
string settings must all be truthy. -/
def is_enabled (s : BlockchainSettings) : Bool :=
  s.BLOCKCHAIN_ENABLED && !s.ETHEREUM_RPC_URL.isEmpty &&
    !s.ETHEREUM_PRIVATE_KEY.isEmpty && !s.CONTRACT_REGISTRY_ADDRESS.isEmpty

/-- Python's ordering on `(key, value)` pairs as compared by
`sorted(metadata.items())`: lexicographic on the two strings. -/
def pairLe (a b : String × String) : Prop :=
  a.1 < b.1 ∨ (a.1 = b.1 ∧ a.2 ≤ b.2)

instance : DecidableRel pairLe := fun a b =>
  inferInstanceAs (Decidable (a.1 < b.1 ∨ (a.1 = b.1 ∧ a.2 ≤ b.2)))

instance : IsTotal (String × String) pairLe where
  total a b := by
    rcases lt_trichotomy a.1 b.1 with h | h | h
    · exact Or.inl (Or.inl h)
    · rcases le_total a.2 b.2 with h2 | h2
      · exact Or.inl (Or.inr ⟨h, h2⟩)
      · exact Or.inr (Or.inr ⟨h.symm, h2⟩)
    · exact Or.inr (Or.inl h)

instance : IsTrans (String × String) pairLe where
  trans a b c hab hbc := by
    rcases hab with hab | ⟨hab, hab2⟩
    · rcases hbc with hbc | ⟨hbc, _⟩
      · exact Or.inl (hab.trans hbc)
      · exact Or.inl (hbc ▸ hab)
    · rcases hbc with hbc | ⟨hbc, hbc2⟩
      · exact Or.inl (hab ▸ hbc)
      · exact Or.inr ⟨hab.trans hbc, hab2.trans hbc2⟩

instance : IsAntisymm (String × String) pairLe where
  antisymm a b hab hba := by
    rcases hab with hab | ⟨hab, hab2⟩
    · rcases hba with hba | ⟨hba, _⟩
      · exact absurd (hab.trans hba) (lt_irrefl a.1)
      · exact absurd hab (hba ▸ lt_irrefl b.1)
    · rcases hba with hba | ⟨_, hba2⟩
      · exact absurd hba (hab ▸ lt_irrefl a.1)
      · exact Prod.ext hab (le_antisymm hab2 hba2)

/-- The canonical ordering `sorted(metadata.items())` applies to the metadata
map before hashing. -/
def canonicalMetadata (md : List (String × String)) : List (String × String) :=
  List.insertionSort pairLe md

/-- Byte-level encoding of the sorted item list, standing in for
`str(sorted(metadata.items())).encode()`. -/
def encodeMetadata (md : List (String × String)) : String :=
  (canonicalMetadata md).foldr
    (fun p acc => "(" ++ p.1 ++ ", " ++ p.2 ++ ")" ++ acc) ""

/-- Mirrors `BlockchainService.generate_document_hash`, abstracting the
SHA-256 digest as an arbitrary function `sha256` of the input bytes:
the hash input is `pdf_data + str(contract_id).encode() +
str(sorted(metadata.items())).encode()` and the result is 0x-prefixed. -/
def generate_document_hash (sha256 : String → String) (pdf_data : String)
    (contract_id : String) (metadata : List (String × String)) : String :=
  "0x" ++ sha256 (pdf_data ++ contract_id ++ encodeMetadata metadata)

/-- The externally determined outcome of one on-chain submission attempt in
`BlockchainService.store_hash_on_chain`. -/
inductive ChainOutcome where
  | confirmed (txHash : String)
  | reverted
  | timedOut
  | logicError (msg : String)
  | otherError (msg : String)
deriving DecidableEq, Repr

/-- The `(success, transaction_hash, error_message)` triple returned by
`store_hash_on_chain`. -/
structure StoreResult where
  success : Bool
  txHash : Option String
  error : Option String
deriving DecidableEq, Repr

/-- Whether the first character list occurs at the head of the second. -/
def leadsWith : List Char → List Char → Bool
  | [], _ => true
  | _ :: _, [] => false
  | p :: ps, c :: cs => p == c && leadsWith ps cs

/-- Whether the first character list occurs contiguously anywhere in the
second, mirroring Python's `in` on strings. -/
def containsChars (pat : List Char) : List Char → Bool
  | [] => leadsWith pat []
  | c :: cs => leadsWith pat (c :: cs) || containsChars pat cs

/-- Mirrors the `"already stored" in error_msg.lower()` test. -/
def isAlreadyStored (msg : String) : Bool :=
  containsChars "already stored".toList (lowerStr msg).toList

/-- Mirrors `BlockchainService.store_hash_on_chain`: disabled integration is
an early failure return; a confirmed receipt succeeds with the transaction
hash; a reverted or never-confirmed transaction fails; a contract logic error
whose message contains "already stored" is treated as success with no
transaction hash; any other exception fails with its message. The Python
function catches every exception, so every outcome maps to a returned triple
and none raises. -/
def store_hash_on_chain (settings : BlockchainSettings) (outcome : ChainOutcome) :
    StoreResult :=
  if !is_enabled settings then
    { success := false, txHash := none, error := some "Blockchain integration is disabled" }
  else
    match outcome with
    | ChainOutcome.confirmed tx =>
      { success := true, txHash := some ("0x" ++ tx), error := none }
    | ChainOutcome.reverted =>
      { success := false, txHash := none, error := some "Transaction reverted" }
    | ChainOutcome.timedOut =>
      { success := false, txHash := none, error := some "Transaction not confirmed in time" }
    | ChainOutcome.logicError msg =>
      if isAlreadyStored msg then
        { success := true, txHash := none, error := some "Hash already stored" }
      else { success := false, txHash := none, error := some msg }
    | ChainOutcome.otherError msg =>
      { success := false, txHash := none, error := some msg }

/-- Result of `ContractService._generate_and_store_blockchain_hash`, plus a
flag recording whether an on-chain submission was attempted at all. -/
structure GenStoreResult where
  hash : String
  tx : Option String
  attempted : Bool
deriving DecidableEq, Repr

/-- Mirrors `ContractService._generate_and_store_blockchain_hash`: always
computes the document hash over the PDF bytes, the contract id and the
metadata map `{filename, created_at, user_id}`; submits on-chain only when
the integration is enabled; any submission failure degrades to
`(document_hash, None)`. -/
def generate_and_store_blockchain_hash (sha256 : String → String)
    (settings : BlockchainSettings) (outcome : ChainOutcome)
    (pdf_data contract_id filename created_at user_id : String) : GenStoreResult :=
  let metadata :=
    [("filename", filename), ("created_at", created_at), ("user_id", user_id)]
  let document_hash := generate_document_hash sha256 pdf_data contract_id metadata
  if is_enabled settings then
    let r := store_hash_on_chain settings outcome
    if r.success then { hash := document_hash, tx := r.txHash, attempted := true }
    else { hash := document_hash, tx := none, attempted := true }
  else { hash := document_hash, tx := none, attempted := false }

/-! ## Theorems -/

/-- Rank of the maximum severity across a risk list under
high > medium > low > safe, with the empty list at the bottom (safe). This is
the spec's `max_severity(R)`. -/
def maxSeverityRank (rs : List RiskEntry) : Nat :=
  (rs.map (fun r => severityRank r.severity)).foldr max 0

theorem severityRank_le_three (s : String) : severityRank s ≤ 3 := by
  unfold severityRank
  split_ifs <;> omega

theorem maxSeverityRank_le_three (rs : List RiskEntry) : maxSeverityRank rs ≤ 3 := by
  induction rs with
  | nil => simp [maxSeverityRank]
  | cons r rs ih =>
    simp only [maxSeverityRank, List.map_cons, List.foldr_cons] at *
    exact max_le (severityRank_le_three r.severity) ih

theorem severityRank_eq_three_iff (s : String) : severityRank s = 3 ↔ s = "high" := by
  unfold severityRank
  split_ifs with h1 h2 h3 <;> simp_all

theorem severityRank_eq_two_iff (s : String) : severityRank s = 2 ↔ s = "medium" := by
  unfold severityRank
  split_ifs with h1 h2 h3 <;> simp_all

theorem severityRank_eq_one_iff (s : String) : severityRank s = 1 ↔ s = "low" := by
  unfold severityRank
  split_ifs with h1 h2 h3 <;> simp_all

theorem severityRank_le_two (s : String) (h : s ≠ "high") : severityRank s ≤ 2 := by
  unfold severityRank
  split_ifs <;> simp_all

theorem severityRank_le_one (s : String) (hh : s ≠ "high") (hm : s ≠ "medium") :
    severityRank s ≤ 1 := by
  unfold severityRank
  split_ifs <;> simp_all

theorem severityRank_eq_zero (s : String) (hh : s ≠ "high") (hm : s ≠ "medium")
    (hl : s ≠ "low") : severityRank s = 0 := by
  unfold severityRank
  split_ifs <;> simp_all

theorem maxSeverityRank_le (rs : List RiskEntry) (k : Nat)
    (h : ∀ r ∈ rs, severityRank r.severity ≤ k) : maxSeverityRank rs ≤ k := by
  induction rs with
  | nil => simp [maxSeverityRank]
  | cons r rs ih =>
    simp only [maxSeverityRank, List.map_cons, List.foldr_cons] at *
    exact max_le (h r (List.mem_cons_self r rs))
      (ih (fun q hq => h q (List.mem_cons_of_mem r hq)))

theorem le_maxSeverityRank (rs : List RiskEntry) (r : RiskEntry) (h : r ∈ rs) :
    severityRank r.severity ≤ maxSeverityRank rs := by
  induction rs with
  | nil => cases h
  | cons q rs ih =>
    simp only [maxSeverityRank, List.map_cons, List.foldr_cons] at *
    rcases List.mem_cons.mp h with h | h
    · subst h
      exact le_max_left _ _
    · exact le_trans (ih h) (le_max_right _ _)

theorem scoreRank_calculate_risk_score (rs : List RiskEntry) :
    scoreRank (calculate_risk_score rs) = maxSeverityRank rs := by
  unfold calculate_risk_score
  have hub3 := maxSeverityRank_le_three rs
  by_cases hH : rs.any (fun r => r.severity == "high") = true
  · obtain ⟨r, hr, hs⟩ := List.any_eq_true.mp hH
    rw [beq_iff_eq] at hs
    have hlb := le_maxSeverityRank rs r hr
    rw [(severityRank_eq_three_iff r.severity).mpr hs] at hlb
    simp only [hH, if_true, scoreRank]
    omega
  · rw [Bool.not_eq_true] at hH
    have hNoHigh : ∀ q ∈ rs, q.severity ≠ "high" := by
      intro q hq
      have := List.any_eq_false.mp hH q hq
      simpa [beq_iff_eq] using this
    by_cases hM : rs.any (fun r => r.severity == "medium") = true
    · obtain ⟨r, hr, hs⟩ := List.any_eq_true.mp hM
      rw [beq_iff_eq] at hs
      have hlb := le_maxSeverityRank rs r hr
      rw [(severityRank_eq_two_iff r.severity).mpr hs] at hlb
      have hub : maxSeverityRank rs ≤ 2 :=
        maxSeverityRank_le rs 2 (fun q hq => severityRank_le_two _ (hNoHigh q hq))
      simp only [hH, hM, Bool.false_eq_true, if_false, if_true, scoreRank]
      omega
    · rw [Bool.not_eq_true] at hM
      have hNoMed : ∀ q ∈ rs, q.severity ≠ "medium" := by
        intro q hq
        have := List.any_eq_false.mp hM q hq
        simpa [beq_iff_eq] using this
      by_cases hL : rs.any (fun r => r.severity == "low") = true
      · obtain ⟨r, hr, hs⟩ := List.any_eq_true.mp hL
        rw [beq_iff_eq] at hs
        have hlb := le_maxSeverityRank rs r hr
        rw [(severityRank_eq_one_iff r.severity).mpr hs] at hlb
        have hub : maxSeverityRank rs ≤ 1 :=
          maxSeverityRank_le rs 1
            (fun q hq => severityRank_le_one _ (hNoHigh q hq) (hNoMed q hq))
        simp only [hH, hM, hL, Bool.false_eq_true, if_false, if_true, scoreRank]
        omega
      · rw [Bool.not_eq_true] at hL
        have hNoLow : ∀ q ∈ rs, q.severity ≠ "low" := by
          intro q hq
          have := List.any_eq_false.mp hL q hq
          simpa [beq_iff_eq] using this
        have hub : maxSeverityRank rs ≤ 0 :=
          maxSeverityRank_le rs 0 (fun q hq =>
            le_of_eq (severityRank_eq_zero _ (hNoHigh q hq) (hNoMed q hq) (hNoLow q hq)))
        simp only [hH, hM, hL, Bool.false_eq_true, if_false, scoreRank]
        omega

/-- C2: the aggregate risk score computed at the join equals the maximum
severity in the returned risk list under high > medium > low > safe, and is
safe for an empty list. -/
theorem C2_aggregate_risk_score_is_max_severity :
    (∀ rs : List RiskEntry,
      scoreRank (calculate_risk_score rs) = maxSeverityRank rs) ∧
    calculate_risk_score [] = RiskScore.safe :=
  ⟨scoreRank_calculate_risk_score, rfl⟩

/-- Invariant maintained by the approval operations as long as no
`remove_second_party` request occurs: at most one `contract_finalized` event
exists, and once one exists both parties are approved (which makes every
further `set_approval` and `add_second_party` request fail). -/
def FinalizeInv (s : ApprovalState) : Prop :=
  finalizedCount s ≤ 1 ∧
    (finalizedCount s = 1 →
      s.firstApproval = ApprovalStatus.approved ∧
        s.secondApproval = some ApprovalStatus.approved)

theorem update_contract_status_spec (s s3 : ApprovalState) (hash : String)
    (tx : Option String) (fin : Bool)
    (h : update_contract_status s hash tx = (s3, fin)) :
    s3.events = s.events ∧ s3.firstApproval = s.firstApproval ∧
    s3.secondApproval = s.secondApproval ∧
    (fin = true →
      s.firstApproval = ApprovalStatus.approved ∧
        s.secondApproval = some ApprovalStatus.approved) := by
  unfold update_contract_status at h
  cases hsnd : s.secondApproval with
  | none =>
    rw [hsnd] at h
    simp only [Prod.mk.injEq] at h
    obtain ⟨h3, hf⟩ := h
    subst h3
    simp [← hf, hsnd]
  | some snd =>
    rw [hsnd] at h
    simp only at h
    split at h
    · simp only [Prod.mk.injEq] at h
      obtain ⟨h3, hf⟩ := h
      subst h3
      simp [← hf, hsnd]
    · split at h
      · rename_i happ
        simp only [Prod.mk.injEq] at h
        obtain ⟨h3, hf⟩ := h
        subst h3
        simp [hsnd, happ.1, happ.2]
      · simp only [Prod.mk.injEq] at h
        obtain ⟨h3, hf⟩ := h
        subst h3
        simp [← hf, hsnd]

theorem approvalEvent_ne_finalized (role : PartyRole) (approved : Bool) :
    approvalEvent role approved ≠ EventType.contract_finalized := by
  cases role <;> cases approved <;> simp [approvalEvent]

theorem set_approval_ok_pending (s : ApprovalState) (caller : Caller)
    (approved : Bool) (hash : String) (tx : Option String) (s1 : ApprovalState)
    (hset : set_approval s caller approved hash tx = Except.ok s1)
    (hInv : FinalizeInv s) : finalizedCount s = 0 := by
  rcases Nat.eq_zero_or_pos (finalizedCount s) with h0 | hpos
  · exact h0
  have hc1 : finalizedCount s = 1 := le_antisymm hInv.1 hpos
  obtain ⟨hf, hs⟩ := hInv.2 hc1
  exfalso
  cases caller with
  | outsider => simp [set_approval, callerParty] at hset
  | first => simp [set_approval, callerParty, hf] at hset
  | second => simp [set_approval, callerParty, hs] at hset

theorem applyApproval_events (s : ApprovalState) (role : PartyRole)
    (ns : ApprovalStatus) : (applyApproval s role ns).events = s.events := by
  cases role <;> rfl

theorem update_proj_spec (s : ApprovalState) (hash : String) (tx : Option String) :
    (update_contract_status s hash tx).1.events = s.events ∧
    (update_contract_status s hash tx).1.firstApproval = s.firstApproval ∧
    (update_contract_status s hash tx).1.secondApproval = s.secondApproval ∧
    ((update_contract_status s hash tx).2 = true →
      s.firstApproval = ApprovalStatus.approved ∧
        s.secondApproval = some ApprovalStatus.approved) :=
  update_contract_status_spec s _ hash tx _ Prod.mk.eta.symm

theorem finalize_step_inv (s2 : ApprovalState) (hash : String) (tx : Option String)
    (hc : s2.events.count EventType.contract_finalized = 0) :
    FinalizeInv
      (finalizeEvents (update_contract_status s2 hash tx).1
        (update_contract_status s2 hash tx).2) := by
  obtain ⟨hev, hfa, hsa, hfin⟩ := update_proj_spec s2 hash tx
  unfold finalizeEvents
  cases hf2 : (update_contract_status s2 hash tx).2 with
  | false =>
    simp only [Bool.false_eq_true, if_false]
    constructor
    · simp [finalizedCount, hev, hc]
    · intro hcc
      exfalso
      simp [finalizedCount, hev, hc] at hcc
  | true =>
    obtain ⟨hfa2, hsa2⟩ := hfin hf2
    simp only [if_pos rfl]
    constructor
    · simp [finalizedCount, List.count_append, hev, hc]
    · intro _
      exact ⟨by simp [hfa, hfa2], by simp [hsa, hsa2]⟩

theorem applyOp_finalize_inv (s : ApprovalState) (op : Op)
    (hrm : op.isRemove = false) (hInv : FinalizeInv s) :
    FinalizeInv (applyOp s op) := by
  obtain ⟨h1, h2⟩ := hInv
  cases op with
  | removeSecondParty caller => simp [Op.isRemove] at hrm
  | addSecondParty caller er isSelf =>
    simp only [applyOp]
    cases hadd : add_second_party s caller er isSelf with
    | error e => exact ⟨h1, h2⟩
    | ok s1 =>
      cases caller with
      | outsider => simp [add_second_party, callerParty] at hadd
      | second =>
        cases hso : s.secondApproval with
        | none => simp [add_second_party, callerParty, hso] at hadd
        | some sa => simp [add_second_party, callerParty, hso] at hadd
      | first =>
        simp only [add_second_party, callerParty] at hadd
        split at hadd
        · exact Except.noConfusion hadd
        · split at hadd
          · exact Except.noConfusion hadd
          · split at hadd
            · exact Except.noConfusion hadd
            · rename_i hnone _ _
              injection hadd with hadd
              subst hadd
              refine ⟨?_, ?_⟩
              · simpa [finalizedCount, List.count_append] using h1
              · intro hc
                have hc' : finalizedCount s = 1 := by
                  simpa [finalizedCount, List.count_append] using hc
                obtain ⟨_, hsome⟩ := h2 hc'
                rw [hsome] at hnone
                simp at hnone
  | setApproval caller approved hash tx =>
    simp only [applyOp]
    cases hset : set_approval s caller approved hash tx with
    | error e => exact ⟨h1, h2⟩
    | ok s1 =>
      have hcount0 : s.events.count EventType.contract_finalized = 0 :=
        set_approval_ok_pending s caller approved hash tx s1 hset ⟨h1, h2⟩
      cases caller with
      | outsider => simp [set_approval, callerParty] at hset
      | first =>
        simp only [set_approval, callerParty] at hset
        split at hset
        · exact Except.noConfusion hset
        · injection hset with hset
          subst hset
          refine finalize_step_inv _ hash tx ?_
          simp [applyApproval_events, List.count_append, List.count_cons, List.count_nil,
            beq_iff_eq, approvalEvent_ne_finalized, hcount0]
      | second =>
        cases hso : s.secondApproval with
        | none => simp [set_approval, callerParty, hso] at hset
        | some sa =>
          simp only [set_approval, callerParty, hso, Option.isSome_some, if_pos,
            Option.getD_some] at hset
          split at hset
          · exact Except.noConfusion hset
          · injection hset with hset
            subst hset
            refine finalize_step_inv _ hash tx ?_
            simp [applyApproval_events, List.count_append, List.count_cons, List.count_nil,
              beq_iff_eq, approvalEvent_ne_finalized, hcount0]

theorem runOps_finalize_inv (ops : List Op) (s : ApprovalState)
    (hInv : FinalizeInv s) (hrm : ∀ op ∈ ops, op.isRemove = false) :
    FinalizeInv (runOps s ops) := by
  induction ops generalizing s with
  | nil => exact hInv
  | cons op ops ih =>
    simp only [runOps, List.foldl_cons]
    exact ih (applyOp s op)
      (applyOp_finalize_inv s op (hrm op (List.mem_cons_self op ops)) hInv)
      (fun q hq => hrm q (List.mem_cons_of_mem op hq))

/-- C1 (amended): across any sequence of `set_approval` and
`add_second_party` requests containing no `remove_second_party` request, at
most one `contract_finalized` audit event is ever recorded for the
contract. -/
theorem C1_finalized_at_most_once_without_removal (ops : List Op)
    (hrm : ∀ op ∈ ops, op.isRemove = false) :
    finalizedCount (runOps initState ops) ≤ 1 :=
  (runOps_finalize_inv ops initState ⟨by decide, by decide⟩ hrm).1

/-- Witness for C1: the canonical add/approve/approve run satisfies the
no-removal hypothesis and records at most one finalization event. -/
theorem C1_finalized_at_most_once_without_removal_witness :
    finalizedCount (runOps initState
      [Op.addSecondParty Caller.first true false,
       Op.setApproval Caller.first true "0xabc" none,
       Op.setApproval Caller.second true "0xabc" none]) ≤ 1 :=
  C1_finalized_at_most_once_without_removal _ (by decide)

/-- The request sequence refuting C1 as stated: finalize, remove the second
party (which resets the contract), re-add and finalize again. -/
def c1Ops : List Op :=
  [Op.addSecondParty Caller.first true false,
   Op.setApproval Caller.first true "0xabc" none,
   Op.setApproval Caller.second true "0xabc" none,
   Op.removeSecondParty Caller.first,
   Op.addSecondParty Caller.first true false,
   Op.setApproval Caller.first true "0xabc" none,
   Op.setApproval Caller.second true "0xabc" none]

/-- C1 counterexample: after finalization, removing and re-adding the second
party lets both parties approve again, so a second `contract_finalized`
audit event is recorded for the same contract. -/
theorem C1_counterexample_two_finalized_events :
    finalizedCount (runOps initState c1Ops) = 2 := by decide

theorem finalizeEvents_firstApproval (s : ApprovalState) (fin : Bool) :
    (finalizeEvents s fin).firstApproval = s.firstApproval := by
  unfold finalizeEvents
  split <;> rfl

theorem finalizeEvents_secondApproval (s : ApprovalState) (fin : Bool) :
    (finalizeEvents s fin).secondApproval = s.secondApproval := by
  unfold finalizeEvents
  split <;> rfl

theorem set_approval_error_of_nonpending (s : ApprovalState) (caller : Caller)
    (approved : Bool) (hash : String) (tx : Option String)
    (h : callerParty s caller = none ∨
      callerApproval s caller ≠ some ApprovalStatus.pending) :
    ∃ e, set_approval s caller approved hash tx = Except.error e := by
  cases caller with
  | outsider => exact ⟨ClientError.forbidden, by simp [set_approval, callerParty]⟩
  | first =>
    rcases h with h | h
    · simp [callerParty] at h
    · have h' : s.firstApproval ≠ ApprovalStatus.pending := by
        simpa [callerApproval, callerParty] using h
      exact ⟨ClientError.badRequest, by simp [set_approval, callerParty, h']⟩
  | second =>
    cases hso : s.secondApproval with
    | none => exact ⟨ClientError.forbidden, by simp [set_approval, callerParty, hso]⟩
    | some sa =>
      rcases h with h | h
      · simp [callerParty, hso] at h
      · have h' : sa ≠ ApprovalStatus.pending := by
          simpa [callerApproval, callerParty, hso] using h
        exact ⟨ClientError.badRequest, by simp [set_approval, callerParty, hso, h']⟩

theorem set_approval_second_call_errors (s : ApprovalState) (caller : Caller)
    (b1 : Bool) (hash1 : String) (tx1 : Option String) (s1 : ApprovalState)
    (h : set_approval s caller b1 hash1 tx1 = Except.ok s1)
    (b2 : Bool) (hash2 : String) (tx2 : Option String) :
    ∃ e, set_approval s1 caller b2 hash2 tx2 = Except.error e := by
  apply set_approval_error_of_nonpending
  right
  cases caller with
  | outsider => simp [set_approval, callerParty] at h
  | first =>
    simp only [set_approval, callerParty] at h
    split at h
    · exact Except.noConfusion h
    · injection h with h
      subst h
      simp only [callerApproval, callerParty, finalizeEvents_firstApproval]
      rw [(update_proj_spec _ hash1 tx1).2.1]
      cases b1 <;> simp [applyApproval]
  | second =>
    cases hso : s.secondApproval with
    | none => simp [set_approval, callerParty, hso] at h
    | some sa =>
      simp only [set_approval, callerParty, hso, Option.isSome_some, if_pos,
        Option.getD_some] at h
      split at h
      · exact Except.noConfusion h
      · injection h with h
        subst h
        simp only [callerApproval, callerParty, finalizeEvents_secondApproval]
        rw [(update_proj_spec _ hash1 tx1).2.2.1]
        cases b1 <;> simp [applyApproval]

/-- C5: `set_approval` fails with a client error whenever the caller has no
party record or their approval is already non-pending, for either boolean;
consequently, after a successful call the same party's next call fails with
a client error. -/
theorem C5_set_approval_terminal_once_set :
    (∀ (s : ApprovalState) (caller : Caller) (approved : Bool) (hash : String)
        (tx : Option String),
      (callerParty s caller = none ∨
        callerApproval s caller ≠ some ApprovalStatus.pending) →
      ∃ e, set_approval s caller approved hash tx = Except.error e) ∧
    (∀ (s : ApprovalState) (caller : Caller) (b1 : Bool) (hash1 : String)
        (tx1 : Option String) (s1 : ApprovalState) (b2 : Bool) (hash2 : String)
        (tx2 : Option String),
      set_approval s caller b1 hash1 tx1 = Except.ok s1 →
      ∃ e, set_approval s1 caller b2 hash2 tx2 = Except.error e) :=
  ⟨set_approval_error_of_nonpending,
   fun s caller b1 hash1 tx1 s1 b2 hash2 tx2 h =>
     set_approval_second_call_errors s caller b1 hash1 tx1 s1 h b2 hash2 tx2⟩

/-- State of a contract whose second party has been added and is still
pending. -/
def c5Start : ApprovalState :=
  { initState with secondApproval := some ApprovalStatus.pending }

/-- State after the first party approves on `c5Start`. -/
def c5AfterFirst : ApprovalState :=
  { c5Start with
    firstApproval := ApprovalStatus.approved,
    events := c5Start.events ++ [EventType.first_party_approved] }

/-- Witness for C5: an outsider's call fails, and the first party's second
call after a successful approval fails. -/
theorem C5_set_approval_terminal_once_set_witness :
    (∃ e, set_approval initState Caller.outsider true "0xabc" none = Except.error e) ∧
    (∃ e, set_approval c5AfterFirst Caller.first false "0xabc" none = Except.error e) :=
  ⟨C5_set_approval_terminal_once_set.1 initState Caller.outsider true "0xabc" none
     (Or.inl (by decide)),
   C5_set_approval_terminal_once_set.2 c5Start Caller.first true "0xabc" none
     c5AfterFirst false "0xabc" none (by rfl)⟩

/-- C4: `remove_second_party` fails with a client error unless the caller is
the first party and a second party exists; on success it deletes the
second-party record, and when the contract status had reached APPROVED or
REJECTED it resets the status to PENDING_REVIEW and the first party's
approval to pending. -/
theorem C4_remove_second_party_spec :
    (∀ (s : ApprovalState) (caller : Caller),
      (callerParty s caller ≠ some PartyRole.first_party ∨ s.secondApproval = none) →
      ∃ e, remove_second_party s caller = Except.error e) ∧
    (∀ (s : ApprovalState) (caller : Caller) (s1 : ApprovalState),
      remove_second_party s caller = Except.ok s1 →
      callerParty s caller = some PartyRole.first_party ∧
      s.secondApproval.isSome = true ∧
      s1.secondApproval = none ∧
      ((s.status = ContractStatus.approved ∨ s.status = ContractStatus.rejected) →
        s1.status = ContractStatus.pending_review ∧
          s1.firstApproval = ApprovalStatus.pending)) := by
  constructor
  · intro s caller h
    cases caller with
    | outsider => exact ⟨ClientError.forbidden, by simp [remove_second_party, callerParty]⟩
    | second =>
      cases hso : s.secondApproval with
      | none =>
        exact ⟨ClientError.forbidden, by simp [remove_second_party, callerParty, hso]⟩
      | some sa =>
        rcases h with h | h
        · exact ⟨ClientError.forbidden, by simp [remove_second_party, callerParty, hso]⟩
        · rw [h] at hso
          exact Option.noConfusion hso
    | first =>
      rcases h with h | h
      · simp [callerParty] at h
      · exact ⟨ClientError.notFound, by simp [remove_second_party, callerParty, h]⟩
  · intro s caller s1 h
    cases caller with
    | outsider => simp [remove_second_party, callerParty] at h
    | second =>
      cases hso : s.secondApproval with
      | none => simp [remove_second_party, callerParty, hso] at h
      | some sa => simp [remove_second_party, callerParty, hso] at h
    | first =>
      refine ⟨by simp [callerParty], ?_⟩
      cases hso : s.secondApproval with
      | none => simp [remove_second_party, callerParty, hso] at h
      | some sa =>
        simp only [remove_second_party, callerParty, hso] at h
        split at h
        · rename_i hst
          injection h with h
          subst h
          refine ⟨rfl, rfl, fun _ => ⟨rfl, rfl⟩⟩
        · rename_i hst
          injection h with h
          subst h
          refine ⟨rfl, rfl, fun hcontra => absurd ?_ hst⟩
          simpa using hcontra

/-- State of a finalized contract (both parties approved). -/
def c4Finalized : ApprovalState :=
  { initState with
    status := ContractStatus.approved,
    firstApproval := ApprovalStatus.approved,
    secondApproval := some ApprovalStatus.approved,
    finalized_at := true }

/-- State after the first party removes the second party on `c4Finalized`. -/
def c4Removed : ApprovalState :=
  { c4Finalized with
    status := ContractStatus.pending_review,
    firstApproval := ApprovalStatus.pending,
    secondApproval := none,
    events := c4Finalized.events ++ [EventType.second_party_removed] }

/-- Witness for C4: an outsider's removal fails, and the first party's
removal of an approved contract's second party resets the contract. -/
theorem C4_remove_second_party_spec_witness :
    (∃ e, remove_second_party initState Caller.outsider = Except.error e) ∧
    (callerParty c4Finalized Caller.first = some PartyRole.first_party ∧
     c4Finalized.secondApproval.isSome = true ∧
     c4Removed.secondApproval = none ∧
     ((c4Finalized.status = ContractStatus.approved ∨
         c4Finalized.status = ContractStatus.rejected) →
       c4Removed.status = ContractStatus.pending_review ∧
         c4Removed.firstApproval = ApprovalStatus.pending)) :=
  ⟨C4_remove_second_party_spec.1 initState Caller.outsider (Or.inl (by decide)),
   C4_remove_second_party_spec.2 c4Finalized Caller.first c4Removed (by rfl)⟩

/-- C3: when text extraction succeeded but the simplify stage failed,
`analyze_and_save` returns the failure response carrying the simplify
stage's error, runs no stage-2 call, and persists nothing. -/
theorem C3_simplify_failure_aborts (o : StageOracle)
    (htext : o.extract_text.isEmpty = false)
    (hfail : (model_a_simplify o.simplify).success = false) :
    ∃ out, analyze_and_save o = Except.ok out ∧
      out.response.success = false ∧
      out.response.error = (model_a_simplify o.simplify).error ∧
      out.db = emptyDB ∧
      out.stagesRun = [StageName.simplify] := by
  have heq : analyze_and_save o =
      Except.ok
        { response :=
            { success := false, contract_id := "", clauses := [], hindi := [],
              bengali := [], risks := [], risk_summary := "",
              error := (model_a_simplify o.simplify).error },
          db := emptyDB, stagesRun := [StageName.simplify] } := by
    unfold analyze_and_save
    simp [htext, hfail]
  exact ⟨_, heq, rfl, rfl, rfl, rfl⟩

/-- Oracle of the spec's scenario: extraction succeeds, simplify fails with
"rate limited". -/
def c3Oracle : StageOracle :=
  { extract_text := "Sample contract text",
    simplify := Except.error "rate limited",
    translate := Except.ok ([], []),
    detect_risks := Except.ok ([], ""),
    metadata := Except.ok (none, none) }

/-- Witness for C3 at the "rate limited" scenario. -/
theorem C3_simplify_failure_aborts_witness :
    ∃ out, analyze_and_save c3Oracle = Except.ok out ∧
      out.response.success = false ∧
      out.response.error = some "rate limited" ∧
      out.db = emptyDB ∧
      out.stagesRun = [StageName.simplify] := by
  obtain ⟨out, h1, h2, h3, h4, h5⟩ :=
    C3_simplify_failure_aborts c3Oracle (by rfl) (by rfl)
  exact ⟨out, h1, h2, by rw [h3]; rfl, h4, h5⟩

theorem matchedRisks_nil (clauses : List ClauseEntry) :
    matchedRisks clauses [] = [] := by
  induction clauses with
  | nil => rfl
  | cons c cs ih => simp [matchedRisks] at ih ⊢

/-- C9: a failed risk-detection stage yields an empty risk list, the pipeline
still succeeds, and the persisted overall risk score is safe — the same
score an empty successful risk stage produces. -/
theorem C9_risk_failure_scores_safe (o : StageOracle) (err : String)
    (hfail : o.detect_risks = Except.error err)
    (htext : o.extract_text.isEmpty = false)
    (hA : (model_a_simplify o.simplify).success = true) :
    (model_c_detect_risks o.detect_risks).success = false ∧
    (model_c_detect_risks o.detect_risks).risks = [] ∧
    calculate_risk_score [] = RiskScore.safe ∧
    ∃ out, analyze_and_save o = Except.ok out ∧
      out.response.success = true ∧
      ∀ c ∈ out.db.contracts, c.overall_risk_score = RiskScore.safe := by
  refine ⟨by rw [hfail]; rfl, by rw [hfail]; rfl, rfl, ?_⟩
  have heq : analyze_and_save o =
      Except.ok
        { response :=
            { success := true, contract_id := "contract",
              clauses := (model_a_simplify o.simplify).clauses,
              hindi := (model_b_translate o.translate).hindi,
              bengali := (model_b_translate o.translate).bengali,
              risks := [], risk_summary := "", error := none },
          db :=
            { contracts :=
                [{ overall_risk_score := RiskScore.safe,
                   status := ContractStatus.pending_review, risk_summary := "",
                   category := parse_contract_category (extract_metadata o.metadata) }],
              parties :=
                [{ role := PartyRole.first_party,
                   approval_status := ApprovalStatus.pending }],
              clauses := (model_a_simplify o.simplify).clauses.map
                (fun cd => ClauseRow.mk cd.clause_id cd.original_text cd.simplified_text),
              translations := buildTranslationRows (model_a_simplify o.simplify).clauses
                (model_b_translate o.translate),
              risks := [],
              events := [EventType.document_uploaded, EventType.ai_analysis_completed] },
          stagesRun :=
            [StageName.simplify, StageName.translate, StageName.detectRisks,
             StageName.extractMeta] } := by
    unfold analyze_and_save
    rw [hfail]
    simp [htext, hA, matchedRisks_nil, buildRiskRows, calculate_risk_score,
      model_c_detect_risks]
  refine ⟨_, heq, rfl, ?_⟩
  intro c hc
  rcases List.mem_singleton.mp hc with rfl
  rfl

/-- Oracle where risk detection fails but every other stage succeeds. -/
def c9Oracle : StageOracle :=
  { extract_text := "Sample contract text",
    simplify := Except.ok [ClauseEntry.mk 1 "original" "simple"],
    translate := Except.ok ([], []),
    detect_risks := Except.error "timeout",
    metadata := Except.ok (none, none) }

/-- Witness for C9 at a concrete failed risk stage. -/
theorem C9_risk_failure_scores_safe_witness :
    (model_c_detect_risks c9Oracle.detect_risks).risks = [] ∧
    ∃ out, analyze_and_save c9Oracle = Except.ok out ∧
      out.response.success = true ∧
      ∀ c ∈ out.db.contracts, c.overall_risk_score = RiskScore.safe := by
  obtain ⟨_, h2, _, hout⟩ :=
    C9_risk_failure_scores_safe c9Oracle "timeout" (by rfl) (by rfl) (by rfl)
  exact ⟨h2, hout⟩

theorem buildRiskRows_error_of_invalid (ps : List (Nat × RiskEntry))
    (h : ∃ p ∈ ps, riskSeverityOfString p.2.severity = none) :
    ∃ sevStr, buildRiskRows ps =
      Except.error (sevStr ++ " is not a valid RiskSeverity") := by
  induction ps with
  | nil => simp at h
  | cons p ps ih =>
    obtain ⟨q, hq, hnone⟩ := h
    rcases List.mem_cons.mp hq with rfl | hq2
    · unfold buildRiskRows
      rw [hnone]
      exact ⟨q.2.severity, rfl⟩
    · unfold buildRiskRows
      cases hsev : riskSeverityOfString p.2.severity with
      | none => exact ⟨p.2.severity, rfl⟩
      | some sev =>
        obtain ⟨sevStr, hmsg⟩ := ih ⟨q, hq2, hnone⟩
        rw [hmsg]
        exact ⟨sevStr, rfl⟩

theorem mem_matchedRisks (clauses : List ClauseEntry) (risks : List RiskEntry)
    (cid : Nat) (r : RiskEntry) :
    (cid, r) ∈ matchedRisks clauses risks ↔
      ∃ c ∈ clauses, r ∈ risks ∧ r.clause_id = c.clause_id ∧ cid = c.clause_id := by
  simp only [matchedRisks, List.mem_flatMap, List.mem_map, List.mem_filter,
    beq_iff_eq, Prod.mk.injEq]
  constructor
  · rintro ⟨c, hc, r2, ⟨hr2, hr2id⟩, hcid, rfl⟩
    exact ⟨c, hc, hr2, hr2id, hcid.symm⟩
  · rintro ⟨c, hc, hr, hid, hcid⟩
    exact ⟨c, hc, r, ⟨hr, hid⟩, hcid.symm, rfl⟩

/-- C10: a matched risk entry whose severity is outside the `RiskSeverity`
enum makes `analyze_and_save` raise the enum constructor's `ValueError`
rather than return a failure response, aborting persistence. -/
theorem C10_invalid_matched_severity_raises (o : StageOracle) (c : ClauseEntry)
    (r : RiskEntry)
    (htext : o.extract_text.isEmpty = false)
    (hA : (model_a_simplify o.simplify).success = true)
    (hc : c ∈ (model_a_simplify o.simplify).clauses)
    (hr : r ∈ (model_c_detect_risks o.detect_risks).risks)
    (hmatch : r.clause_id = c.clause_id)
    (hbad : riskSeverityOfString r.severity = none) :
    ∃ sevStr, analyze_and_save o =
      Except.error (sevStr ++ " is not a valid RiskSeverity") := by
  have hmem : (c.clause_id, r) ∈ matchedRisks (model_a_simplify o.simplify).clauses
      (model_c_detect_risks o.detect_risks).risks :=
    (mem_matchedRisks _ _ _ _).mpr ⟨c, hc, hr, hmatch, rfl⟩
  obtain ⟨sevStr, hmsg⟩ :=
    buildRiskRows_error_of_invalid _ ⟨(c.clause_id, r), hmem, hbad⟩
  refine ⟨sevStr, ?_⟩
  unfold analyze_and_save
  simp [htext, hA, hmsg]

/-- Oracle whose single matched risk entry carries the out-of-enum severity
"critical". -/
def c10Oracle : StageOracle :=
  { extract_text := "Sample contract text",
    simplify := Except.ok [ClauseEntry.mk 1 "original" "simple"],
    translate := Except.ok ([], []),
    detect_risks :=
      Except.ok ([RiskEntry.mk 1 "unfair" "critical" "desc" "rec"], "summary"),
    metadata := Except.ok (none, none) }

/-- Witness for C10 at the "critical" severity input. -/
theorem C10_invalid_matched_severity_raises_witness :
    ∃ sevStr, analyze_and_save c10Oracle =
      Except.error (sevStr ++ " is not a valid RiskSeverity") :=
  C10_invalid_matched_severity_raises c10Oracle (ClauseEntry.mk 1 "original" "simple")
    (RiskEntry.mk 1 "unfair" "critical" "desc" "rec")
    (by rfl) (by rfl) (by simp [model_a_simplify, c10Oracle])
    (by simp [model_c_detect_risks, c10Oracle]) (by rfl) (by rfl)

/-- C7 counterexample: the risk entry with severity "critical" matches
stage-1 clause 1, yet the join raises the enum `ValueError`, so the entry is
not persisted although matched — refuting "persisted iff matched" as an
unconditional statement. -/
theorem C7_counterexample_matched_entry_not_persisted :
    RiskEntry.mk 1 "unfair" "critical" "desc" "rec"
        ∈ (model_c_detect_risks c10Oracle.detect_risks).risks ∧
    ClauseEntry.mk 1 "original" "simple"
        ∈ (model_a_simplify c10Oracle.simplify).clauses ∧
    (RiskEntry.mk 1 "unfair" "critical" "desc" "rec").clause_id =
      (ClauseEntry.mk 1 "original" "simple").clause_id ∧
    analyze_and_save c10Oracle =
      Except.error "critical is not a valid RiskSeverity" := by
  refine ⟨?_, ?_, rfl, by rfl⟩
  · simp [model_c_detect_risks, c10Oracle]
  · simp [model_a_simplify, c10Oracle]

theorem buildRiskRows_ok_of_valid (ps : List (Nat × RiskEntry))
    (h : ∀ p ∈ ps, (riskSeverityOfString p.2.severity).isSome = true) :
    ∃ rows, buildRiskRows ps = Except.ok rows := by
  induction ps with
  | nil => exact ⟨[], rfl⟩
  | cons p ps ih =>
    obtain ⟨sev, hsev⟩ :=
      Option.isSome_iff_exists.mp (h p (List.mem_cons_self p ps))
    obtain ⟨rows, hrows⟩ := ih (fun q hq => h q (List.mem_cons_of_mem p hq))
    refine ⟨RiskRow.mk p.1 p.2.risk_type sev p.2.description p.2.recommendation :: rows, ?_⟩
    unfold buildRiskRows
    rw [hsev, hrows]

theorem buildRiskRows_ok_mem (ps : List (Nat × RiskEntry)) (rows : List RiskRow)
    (h : buildRiskRows ps = Except.ok rows) (row : RiskRow) :
    row ∈ rows ↔
      ∃ p ∈ ps, ∃ sev, riskSeverityOfString p.2.severity = some sev ∧
        row = RiskRow.mk p.1 p.2.risk_type sev p.2.description p.2.recommendation := by
  induction ps generalizing rows with
  | nil =>
    injection h with h
    subst h
    simp
  | cons p ps ih =>
    unfold buildRiskRows at h
    split at h
    · exact Except.noConfusion h
    · rename_i sev hsev
      split at h
      · rename_i rows2 heq
        injection h with h
        subst h
        rw [List.mem_cons, ih rows2 heq]
        constructor
        · rintro (rfl | ⟨q, hq, sev2, hsev2, rfl⟩)
          · exact ⟨p, List.mem_cons_self p ps, sev, hsev, rfl⟩
          · exact ⟨q, List.mem_cons_of_mem p hq, sev2, hsev2, rfl⟩
        · rintro ⟨q, hq, sev2, hsev2, rfl⟩
          rcases List.mem_cons.mp hq with rfl | hq2
          · rw [hsev] at hsev2
            injection hsev2 with hsev2
            subst hsev2
            exact Or.inl rfl
          · exact Or.inr ⟨q, hq2, sev2, hsev2, rfl⟩
      · exact Except.noConfusion h

theorem mem_buildTranslationRows_hindi (clauses : List ClauseEntry)
    (b : ModelBOutput) (t : TranslationEntry) (ht : t ∈ b.hindi) :
    (TranslationRow.mk t.clause_id TranslationLanguage.hindi t.translated_text
        ∈ buildTranslationRows clauses b) ↔
      ∃ c ∈ clauses, c.clause_id = t.clause_id := by
  simp only [buildTranslationRows, List.mem_flatMap, List.mem_append, List.mem_map,
    List.mem_filter, beq_iff_eq, TranslationRow.mk.injEq, reduceCtorEq, and_false,
    false_and, exists_false, or_false, false_or]
  constructor
  · rintro ⟨c, hc, t2, ⟨ht2, hid⟩, hcid, -, -⟩
    exact ⟨c, hc, hcid⟩
  · rintro ⟨c, hc, hcid⟩
    exact ⟨c, hc, t, ⟨ht, hcid.symm⟩, hcid, trivial, rfl⟩

theorem mem_buildTranslationRows_bengali (clauses : List ClauseEntry)
    (b : ModelBOutput) (t : TranslationEntry) (ht : t ∈ b.bengali) :
    (TranslationRow.mk t.clause_id TranslationLanguage.bengali t.translated_text
        ∈ buildTranslationRows clauses b) ↔
      ∃ c ∈ clauses, c.clause_id = t.clause_id := by
  simp only [buildTranslationRows, List.mem_flatMap, List.mem_append, List.mem_map,
    List.mem_filter, beq_iff_eq, TranslationRow.mk.injEq, reduceCtorEq, and_false,
    false_and, exists_false, or_false, false_or]
  constructor
  · rintro ⟨c, hc, t2, ⟨ht2, hid⟩, hcid, -, -⟩
    exact ⟨c, hc, hcid⟩
  · rintro ⟨c, hc, hcid⟩
    exact ⟨c, hc, t, ⟨ht, hcid.symm⟩, hcid, trivial, rfl⟩

/-- C7 (amended): provided every matched risk entry's severity is one of the
three `RiskSeverity` values (otherwise the join raises, see C10), the join
completes successfully and a translation or risk entry is persisted if and
only if its clause_id equals the clause_id of some stage-1 clause; unmatched
entries are silently dropped. -/
theorem C7_amended_persisted_iff_matched (o : StageOracle)
    (htext : o.extract_text.isEmpty = false)
    (hA : (model_a_simplify o.simplify).success = true)
    (hvalid : ∀ p ∈ matchedRisks (model_a_simplify o.simplify).clauses
        (model_c_detect_risks o.detect_risks).risks,
      (riskSeverityOfString p.2.severity).isSome = true) :
    ∃ out, analyze_and_save o = Except.ok out ∧
      out.response.success = true ∧
      (∀ t ∈ (model_b_translate o.translate).hindi,
        (TranslationRow.mk t.clause_id TranslationLanguage.hindi t.translated_text
            ∈ out.db.translations ↔
          ∃ c ∈ (model_a_simplify o.simplify).clauses, c.clause_id = t.clause_id)) ∧
      (∀ t ∈ (model_b_translate o.translate).bengali,
        (TranslationRow.mk t.clause_id TranslationLanguage.bengali t.translated_text
            ∈ out.db.translations ↔
          ∃ c ∈ (model_a_simplify o.simplify).clauses, c.clause_id = t.clause_id)) ∧
      (∀ r ∈ (model_c_detect_risks o.detect_risks).risks, ∀ sev,
        riskSeverityOfString r.severity = some sev →
        (RiskRow.mk r.clause_id r.risk_type sev r.description r.recommendation
            ∈ out.db.risks ↔
          ∃ c ∈ (model_a_simplify o.simplify).clauses, c.clause_id = r.clause_id)) := by
  obtain ⟨rows, hrows⟩ := buildRiskRows_ok_of_valid _ hvalid
  have heq : analyze_and_save o =
      Except.ok
        { response :=
            { success := true, contract_id := "contract",
              clauses := (model_a_simplify o.simplify).clauses,
              hindi := (model_b_translate o.translate).hindi,
              bengali := (model_b_translate o.translate).bengali,
              risks := (model_c_detect_risks o.detect_risks).risks,
              risk_summary := (model_c_detect_risks o.detect_risks).summary,
              error := none },
          db :=
            { contracts :=
                [{ overall_risk_score :=
                     calculate_risk_score (model_c_detect_risks o.detect_risks).risks,
                   status := ContractStatus.pending_review,
                   risk_summary := (model_c_detect_risks o.detect_risks).summary,
                   category := parse_contract_category (extract_metadata o.metadata) }],
              parties :=
                [{ role := PartyRole.first_party,
                   approval_status := ApprovalStatus.pending }],
              clauses := (model_a_simplify o.simplify).clauses.map
                (fun cd => ClauseRow.mk cd.clause_id cd.original_text cd.simplified_text),
              translations := buildTranslationRows (model_a_simplify o.simplify).clauses
                (model_b_translate o.translate),
              risks := rows,
              events := [EventType.document_uploaded, EventType.ai_analysis_completed] },
          stagesRun :=
            [StageName.simplify, StageName.translate, StageName.detectRisks,
             StageName.extractMeta] } := by
    unfold analyze_and_save
    simp [htext, hA, hrows]
  refine ⟨_, heq, rfl, ?_, ?_, ?_⟩
  · intro t ht
    exact mem_buildTranslationRows_hindi _ _ t ht
  · intro t ht
    exact mem_buildTranslationRows_bengali _ _ t ht
  · intro r hr sev hsev
    rw [buildRiskRows_ok_mem _ rows hrows]
    constructor
    · rintro ⟨p, hp, sev2, hsev2, hrow⟩
      obtain ⟨c, hc, -, -, hcid⟩ :=
        (mem_matchedRisks _ _ p.1 p.2).mp hp
      have h1 : r.clause_id = p.1 := congrArg RiskRow.clause_index hrow
      exact ⟨c, hc, by rw [← hcid, ← h1]⟩
    · rintro ⟨c, hc, hcid⟩
      refine ⟨(c.clause_id, r), ?_, sev, hsev, ?_⟩
      · exact (mem_matchedRisks _ _ c.clause_id r).mpr ⟨c, hc, hr, hcid.symm, rfl⟩
      · rw [hcid]

/-- Oracle with matched and unmatched translation and risk entries, all
severities valid. -/
def c7Oracle : StageOracle :=
  { extract_text := "Sample contract text",
    simplify := Except.ok [ClauseEntry.mk 1 "original" "simple"],
    translate :=
      Except.ok
        ([TranslationEntry.mk 1 "anuvad", TranslationEntry.mk 9 "chhuta"],
         [TranslationEntry.mk 1 "onubad"]),
    detect_risks :=
      Except.ok
        ([RiskEntry.mk 1 "unfair" "high" "desc" "rec",
          RiskEntry.mk 9 "unfair" "high" "desc" "rec"], "summary"),
    metadata := Except.ok (none, none) }

/-- Witness for C7 (amended): the run with matched and unmatched entries
completes successfully. -/
theorem C7_amended_persisted_iff_matched_witness :
    ∃ out, analyze_and_save c7Oracle = Except.ok out ∧
      out.response.success = true := by
  obtain ⟨out, h1, h2, -, -, -⟩ :=
    C7_amended_persisted_iff_matched c7Oracle (by rfl) (by rfl) (by decide)
  exact ⟨out, h1, h2⟩

/-- C8: the metadata stage's category is lower-cased and matched against the
closed 9-tag set; a missing category defaults to "other", an unrecognized
value falls back to "other", and a recognized value (in any case) maps to
its tag. -/
theorem C8_category_closed_set_case_insensitive :
    (∀ rawExp : Option String,
      parse_contract_category (extract_metadata (Except.ok (none, rawExp))) =
        some ContractCategory.other) ∧
    (∀ (s : String) (rawExp : Option String),
      valid_categories.contains (lowerStr s) = false →
      parse_contract_category (extract_metadata (Except.ok (some s, rawExp))) =
        some ContractCategory.other) ∧
    (∀ (s : String) (rawExp : Option String),
      valid_categories.contains (lowerStr s) = true →
      parse_contract_category (extract_metadata (Except.ok (some s, rawExp))) =
        contractCategoryOfString (lowerStr s) ∧
      (contractCategoryOfString (lowerStr s)).isSome = true) := by
  refine ⟨fun rawExp => rfl, ?_, ?_⟩
  · intro s rawExp h
    simp only [extract_metadata, Option.getD_some, h, Bool.false_eq_true, if_false]
    rfl
  · intro s rawExp h
    have hmem : lowerStr s = "employment" ∨ lowerStr s = "rental" ∨ lowerStr s = "nda" ∨
        lowerStr s = "service" ∨ lowerStr s = "sales" ∨ lowerStr s = "partnership" ∨
        lowerStr s = "loan" ∨ lowerStr s = "insurance" ∨ lowerStr s = "other" := by
      simpa [valid_categories] using h
    simp only [extract_metadata, Option.getD_some]
    rcases hmem with h1 | h1 | h1 | h1 | h1 | h1 | h1 | h1 | h1 <;> rw [h1] <;>
      exact ⟨rfl, rfl⟩

/-- Witness for C8: missing category, unrecognized category, and a
mixed-case recognized category. -/
theorem C8_category_closed_set_case_insensitive_witness :
    parse_contract_category (extract_metadata (Except.ok (none, none))) =
      some ContractCategory.other ∧
    parse_contract_category (extract_metadata (Except.ok (some "memorandum", none))) =
      some ContractCategory.other ∧
    parse_contract_category (extract_metadata (Except.ok (some "EmPlOyMeNt", none))) =
      contractCategoryOfString (lowerStr "EmPlOyMeNt") :=
  ⟨C8_category_closed_set_case_insensitive.1 none,
   C8_category_closed_set_case_insensitive.2.1 "memorandum" none (by decide),
   (C8_category_closed_set_case_insensitive.2.2 "EmPlOyMeNt" none (by decide)).1⟩

theorem isEmpty_false_iff (s : String) : s.isEmpty = false ↔ s ≠ "" := by
  rw [Bool.eq_false_iff, Ne, Ne]
  exact not_congr (String.isEmpty_iff s)

theorem canonicalMetadata_perm (md md' : List (String × String)) (h : md.Perm md') :
    canonicalMetadata md = canonicalMetadata md' :=
  List.eq_of_perm_of_sorted
    ((List.perm_insertionSort pairLe md).trans
      (h.trans (List.perm_insertionSort pairLe md').symm))
    (List.sorted_insertionSort pairLe md)
    (List.sorted_insertionSort pairLe md')

/-- C6: the document hash is always computed over the PDF bytes, the
contract identity and the canonically ordered metadata map (so any
permutation of the map hashes identically); on-chain submission is attempted
exactly when the feature flag, endpoint, credential and registry address are
all present; every submission failure degrades to `(hash, None)` while an
"already stored" logic error counts as success with no transaction hash; and
on finalization the hash and the optional transaction hash are stored on the
contract unconditionally. -/
theorem C6_attestation_hash_and_degradation :
    (∀ (sha256 : String → String) (pdf cid : String)
        (md md' : List (String × String)), md.Perm md' →
      generate_document_hash sha256 pdf cid md =
        generate_document_hash sha256 pdf cid md') ∧
    (∀ settings : BlockchainSettings,
      is_enabled settings = true ↔
        (settings.BLOCKCHAIN_ENABLED = true ∧ settings.ETHEREUM_RPC_URL ≠ "" ∧
         settings.ETHEREUM_PRIVATE_KEY ≠ "" ∧
         settings.CONTRACT_REGISTRY_ADDRESS ≠ "")) ∧
    (∀ (sha256 : String → String) (settings : BlockchainSettings)
        (outcome : ChainOutcome) (pdf cid fn ca uid : String),
      (generate_and_store_blockchain_hash sha256 settings outcome
          pdf cid fn ca uid).attempted = is_enabled settings ∧
      (generate_and_store_blockchain_hash sha256 settings outcome
          pdf cid fn ca uid).hash =
        generate_document_hash sha256 pdf cid
          [("filename", fn), ("created_at", ca), ("user_id", uid)] ∧
      ((store_hash_on_chain settings outcome).success = false →
        (generate_and_store_blockchain_hash sha256 settings outcome
            pdf cid fn ca uid).tx = none)) ∧
    (∀ (settings : BlockchainSettings) (msg : String),
      isAlreadyStored msg = true →
      (store_hash_on_chain settings (ChainOutcome.logicError msg)).success =
          is_enabled settings ∧
        (store_hash_on_chain settings (ChainOutcome.logicError msg)).txHash = none) ∧
    (∀ (s : ApprovalState) (hash : String) (tx : Option String),
      s.firstApproval = ApprovalStatus.approved →
      s.secondApproval = some ApprovalStatus.approved →
      (update_contract_status s hash tx).1.blockchainHash = some hash ∧
        (update_contract_status s hash tx).1.blockchainTx = tx) := by
  refine ⟨?_, ?_, ?_, ?_, ?_⟩
  · intro sha256 pdf cid md md' h
    unfold generate_document_hash encodeMetadata
    rw [canonicalMetadata_perm md md' h]
  · intro settings
    simp only [is_enabled, Bool.and_eq_true, Bool.not_eq_true', isEmpty_false_iff,
      and_assoc]
  · intro sha256 settings outcome pdf cid fn ca uid
    refine ⟨?_, ?_, ?_⟩
    · unfold generate_and_store_blockchain_hash
      by_cases he : is_enabled settings = true
      · simp only [he, if_pos]
        split <;> rfl
      · rw [Bool.not_eq_true] at he
        simp [he]
    · unfold generate_and_store_blockchain_hash
      by_cases he : is_enabled settings = true
      · simp only [he, if_pos]
        split <;> rfl
      · rw [Bool.not_eq_true] at he
        simp [he]
    · intro hfail
      unfold generate_and_store_blockchain_hash
      by_cases he : is_enabled settings = true
      · simp [he, hfail]
      · rw [Bool.not_eq_true] at he
        simp [he]
  · intro settings msg h
    unfold store_hash_on_chain
    by_cases he : is_enabled settings = true
    · simp [he, h]
    · rw [Bool.not_eq_true] at he
      simp [he]
  · intro s hash tx hfa hsa
    unfold update_contract_status
    rw [hsa, hfa]
    simp

/-- A fully configured blockchain integration. -/
def c6Settings : BlockchainSettings :=
  { BLOCKCHAIN_ENABLED := true, ETHEREUM_RPC_URL := "https://rpc.sepolia.org",
    ETHEREUM_PRIVATE_KEY := "0xkey", CONTRACT_REGISTRY_ADDRESS := "0xregistry" }

/-- State of a contract with both parties approved. -/
def c6BothApproved : ApprovalState :=
  { initState with
    firstApproval := ApprovalStatus.approved,
    secondApproval := some ApprovalStatus.approved }

/-- Witness for C6: permutation-invariant hashing, "already stored" treated
as success, a reverted transaction degrading to no receipt, and the hash
persisted on finalization. -/
theorem C6_attestation_hash_and_degradation_witness :
    generate_document_hash (fun s => s) "pdfbytes" "cid-1" [("b", "2"), ("a", "1")] =
      generate_document_hash (fun s => s) "pdfbytes" "cid-1" [("a", "1"), ("b", "2")] ∧
    (store_hash_on_chain c6Settings
        (ChainOutcome.logicError "execution reverted: Hash already stored")).success =
      is_enabled c6Settings ∧
    (generate_and_store_blockchain_hash (fun s => s) c6Settings ChainOutcome.reverted
        "pdfbytes" "cid-1" "f.pdf" "2024-01-01" "user-1").tx = none ∧
    (update_contract_status c6BothApproved "0xhash" (some "0xtx")).1.blockchainHash =
      some "0xhash" :=
  ⟨C6_attestation_hash_and_degradation.1 (fun s => s) "pdfbytes" "cid-1"
     [("b", "2"), ("a", "1")] [("a", "1"), ("b", "2")] (by decide),
   (C6_attestation_hash_and_degradation.2.2.2.1 c6Settings
     "execution reverted: Hash already stored" (by decide)).1,
   (C6_attestation_hash_and_degradation.2.2.1 (fun s => s) c6Settings
     ChainOutcome.reverted "pdfbytes" "cid-1" "f.pdf" "2024-01-01" "user-1").2.2
     (by rfl),
   (C6_attestation_hash_and_degradation.2.2.2.2 c6BothApproved "0xhash"
     (some "0xtx") rfl rfl).1⟩

end SaralSandhi
